import Mathlib

/- Shallow embedding of src/diffusion.py: a 2-D heat-diffusion simulation of a
vertically subducting slab cooling a hot mantle.  Grids are total functions
from (row, column) indices to exact rational temperatures; the program's
uninitialized next-state buffer (np.empty) is modelled by an arbitrary grid
parameter threaded through the simulation. -/

namespace SlabDiff

abbrev Grid := Nat → Nat → ℚ

/- domain size [km] -/
def w : ℚ := 100

def h : ℚ := 100

/- grid resolution [km] -/
def dx : ℚ := 1

def dy : ℚ := 1

/- thermal diffusivity of oceanic lithosphere [m^2/s] -/
def K : ℚ := 87000000

/- subduction rate [m/yr]; not used by the stepping rule -/
def v : ℚ := 1/10

/- plate thickness [km]; not used by the stepping rule -/
def thickness : ℚ := 50

/- slab and mantle temperatures [°C] -/
def Tslab : ℚ := 0

def Tmantle : ℚ := 1300

/- grid dimensions: nx = int(w/dx), ny = int(h/dy) -/
def nx : Nat := 100

def ny : Nat := 100

def dx2 : ℚ := dx * dx

def dy2 : ℚ := dy * dy

/- stability-derived time step -/
def dt : ℚ := dx2 * dy2 / (2 * K * (dx2 + dy2))

/- initial previous-state grid: Tmantle everywhere, slab placed at row 1,
columns 25..74 (u0[1,25:75] = Tslab) -/
def u0init : Grid := fun r c => if r = 1 ∧ 25 ≤ c ∧ c < 75 then Tslab else Tmantle

/- the interior slice u[1:-1,1:-1] written by the stencil -/
abbrev interiorCond (r c : Nat) : Prop := 1 ≤ r ∧ r ≤ nx - 2 ∧ 1 ≤ c ∧ c ≤ ny - 2

/- cells overwritten by the boundary-condition double loop of diffuser -/
abbrev bcCond (r c : Nat) : Prop :=
  c = 0 ∨ c = nx - 1 ∨ r = ny - 1 ∨ (r = 0 ∧ (c < 25 ∨ 75 < c))

/- the discretized diffusion equation at one cell, reading u0 only -/
def interiorStep (u0 : Grid) (r c : Nat) : ℚ :=
  u0 r c + K * dt * ((u0 (r+1) c - 2 * u0 r c + u0 (r-1) c) / dx2
    + (u0 r (c+1) - 2 * u0 r c + u0 r (c-1)) / dy2)

/- the next-state buffer after the vectorized interior assignment: interior
cells get the stencil value, all others keep the buffer's prior contents -/
def stencilGrid (u0 u : Grid) : Grid := fun r c =>
  if interiorCond r c then interiorStep u0 r c else u r c

/- the boundary-condition loop: edge columns, bottom row, and top-row cells
outside columns 25..75 are pinned to Tmantle -/
def applyBC (u : Grid) : Grid := fun r c => if bcCond r c then Tmantle else u r c

/- diffuser(u0, u): writes the stencil into u, applies boundary conditions,
then returns (u.copy(), u) -/
def diffuser (u0 u : Grid) : Grid × Grid :=
  (applyBC (stencilGrid u0 u), applyBC (stencilGrid u0 u))

/- the slab-sinking assignments at step m:
u0[2:m+1,25:75] = u0[1:m,25:75] (a simultaneous shift, NumPy copies the
overlapping source before writing) followed by u0[1,25:75] = Tslab -/
def advect (m : Nat) (u0 : Grid) : Grid := fun r c =>
  if 25 ≤ c ∧ c < 75 then
    if r = 1 then Tslab
    else if 2 ≤ r ∧ r ≤ m then u0 (r - 1) c
    else u0 r c
  else u0 r c

/- simulator state: previous-state grid u0 and next-state buffer u -/
structure State where
  u0 : Grid
  u : Grid

def advectOp (m : Nat) (s : State) : State := { u0 := advect m s.u0, u := s.u }

def diffuseOp (s : State) : State :=
  { u0 := (diffuser s.u0 s.u).1, u := (diffuser s.u0 s.u).2 }

/- the body of the time-stepping loop at iteration m -/
def step (m : Nat) (s : State) : State :=
  { u0 := (diffuser (advect m s.u0) s.u).1
    u := (diffuser (advect m s.u0) s.u).2 }

/- state after n iterations of the loop, starting from u0init and an
arbitrary uninitialized buffer g -/
def sim (g : Grid) : Nat → State
  | 0 => { u0 := u0init, u := g }
  | n + 1 => step n (sim g n)

/- snapshot for rendering: u.copy(), leaving the state untouched -/
def snapshot (s : State) : Grid × State := (s.u, s)

def nsteps : Nat := 100

/- range and positivity invariants -/

def inRangeGrid (G : Grid) : Prop :=
  ∀ r c, r < 100 → c < 100 → Tslab ≤ G r c ∧ G r c ≤ Tmantle

/- all cells left of the slab span stay strictly warmer than Tslab -/
def pos24 (G : Grid) : Prop := ∀ r c, r < 100 → c ≤ 24 → Tslab < G r c

def Inv (s : State) : Prop := inRangeGrid s.u0 ∧ inRangeGrid s.u ∧ pos24 s.u0

/- a row all of whose slab-span cells are at Tslab -/
def coldRow (G : Grid) (r : Nat) : Bool :=
  (List.range' 25 50).all (fun c => decide (G r c = Tslab))

/- number of rows at Tslab within the slab's column span -/
def coldRowCount (G : Grid) : Nat :=
  ((List.range 100).filter (fun r => coldRow G r)).length

/- an adversarial uninitialized buffer exploiting the never-written top-row
cells: tuned so that row 1 is driven to exactly Tslab after step index 1 and
away from Tslab after step index 2 -/
def g7 : Grid := fun r c =>
  if r = 0 ∧ (c = 25 ∨ c = 74) then -1950
  else if r = 0 ∧ 26 ≤ c ∧ c ≤ 73 then -975
  else 1300

/- basic evaluation lemmas -/

lemma KdtEq : K * dt = 1/4 := by norm_num [K, dt, dx2, dy2, dx, dy]

lemma dx2_eq : dx2 = 1 := by norm_num [dx2, dx]

lemma dy2_eq : dy2 = 1 := by norm_num [dy2, dy]

lemma interiorStep_avg (u0 : Grid) (r c : Nat) :
    interiorStep u0 r c
      = (u0 (r+1) c + u0 (r-1) c + u0 r (c+1) + u0 r (c-1)) / 4 := by
  unfold interiorStep
  rw [KdtEq, dx2_eq, dy2_eq]
  ring

lemma interiorCond_iff (r c : Nat) :
    interiorCond r c ↔ 1 ≤ r ∧ r ≤ 98 ∧ 1 ≤ c ∧ c ≤ 98 := by
  simp [interiorCond, nx, ny]

lemma bcCond_iff (r c : Nat) :
    bcCond r c ↔ c = 0 ∨ c = 99 ∨ r = 99 ∨ (r = 0 ∧ (c < 25 ∨ 75 < c)) := by
  simp [bcCond, nx, ny]

lemma sim_succ_u0 (g : Grid) (n : Nat) :
    (sim g (n+1)).u0
      = applyBC (stencilGrid (advect n ((sim g n).u0)) ((sim g n).u)) := rfl

lemma sim_succ_u (g : Grid) (n : Nat) :
    (sim g (n+1)).u
      = applyBC (stencilGrid (advect n ((sim g n).u0)) ((sim g n).u)) := rfl

lemma sim_u0_eq_u (g : Grid) (n : Nat) : (sim g (n+1)).u0 = (sim g (n+1)).u := rfl

/- invariant preservation -/

lemma u0init_inRange : inRangeGrid u0init := by
  intro r c _ _
  unfold u0init
  split_ifs <;> constructor <;> norm_num [Tslab, Tmantle]

lemma u0init_pos24 : pos24 u0init := by
  intro r c _ hc
  unfold u0init
  rw [if_neg (by omega)]
  norm_num [Tslab, Tmantle]

lemma advect_inRange (m : Nat) (u0 : Grid) (h0 : inRangeGrid u0) :
    inRangeGrid (advect m u0) := by
  intro r c hr hc
  unfold advect
  split_ifs with h1 h2 h3
  · constructor <;> norm_num [Tslab, Tmantle]
  · exact h0 (r - 1) c (by omega) hc
  · exact h0 r c hr hc
  · exact h0 r c hr hc

lemma advect_pos24 (m : Nat) (u0 : Grid) (hp : pos24 u0) :
    pos24 (advect m u0) := by
  intro r c hr hc
  unfold advect
  rw [if_neg (by omega)]
  exact hp r c hr hc

lemma stepInv (m : Nat) (s : State) (hs : Inv s) : Inv (step m s) := by
  obtain ⟨h0, hu, hp⟩ := hs
  have hA : inRangeGrid (advect m s.u0) := advect_inRange m s.u0 h0
  have hAp : pos24 (advect m s.u0) := advect_pos24 m s.u0 hp
  have hN : inRangeGrid (applyBC (stencilGrid (advect m s.u0) s.u)) := by
    intro r c hr hc
    simp only [applyBC, stencilGrid]
    split_ifs with hb hi
    · constructor <;> norm_num [Tslab, Tmantle]
    · rw [interiorCond_iff] at hi
      rw [interiorStep_avg]
      have B1 := hA (r+1) c (by omega) hc
      have B2 := hA (r-1) c (by omega) hc
      have B3 := hA r (c+1) hr (by omega)
      have B4 := hA r (c-1) hr (by omega)
      constructor
      · linarith [B1.1, B2.1, B3.1, B4.1]
      · linarith [B1.2, B2.2, B3.2, B4.2]
    · exact hu r c hr hc
  have hNp : pos24 (applyBC (stencilGrid (advect m s.u0) s.u)) := by
    intro r c hr hc
    simp only [applyBC, stencilGrid]
    split_ifs with hb hi
    · norm_num [Tslab, Tmantle]
    · rw [interiorCond_iff] at hi
      rw [interiorStep_avg]
      have P1 := hAp (r+1) c (by omega) hc
      have P2 := hAp (r-1) c (by omega) hc
      have P3 := hAp r (c-1) hr (by omega)
      have B4 := (hA r (c+1) hr (by omega)).1
      linarith
    · exfalso
      rw [bcCond_iff] at hb
      rw [interiorCond_iff] at hi
      omega
  exact ⟨hN, hN, hNp⟩

lemma Inv_sim (g : Grid) (hg : inRangeGrid g) : ∀ n, Inv (sim g n)
  | 0 => ⟨u0init_inRange, hg, u0init_pos24⟩
  | n + 1 => stepInv n (sim g n) (Inv_sim g hg n)

/- boundary cells of any post-step grid are Tmantle -/
lemma sim_bc (g : Grid) (k r c : Nat) (hb : bcCond r c) :
    (sim g (k+1)).u r c = Tmantle := by
  rw [sim_succ_u]
  simp only [applyBC]
  rw [if_pos hb]

/- the never-written top-row cells keep the uninitialized buffer's contents -/
lemma sim_u_row0 (g : Grid) (n c : Nat) (h1 : 25 ≤ c) (h2 : c ≤ 75) :
    (sim g n).u 0 c = g 0 c := by
  induction n with
  | zero => rfl
  | succ k ih =>
    rw [sim_succ_u]
    simp only [applyBC, stencilGrid]
    rw [if_neg (by rw [bcCond_iff]; omega), if_neg (by rw [interiorCond_iff]; omega)]
    exact ih

/- closed form of the post-advection grid at step 0 -/
lemma adv0_val (r c : Nat) :
    advect 0 u0init r c = if r = 1 ∧ 25 ≤ c ∧ c < 75 then Tslab else Tmantle := by
  unfold advect u0init
  split_ifs <;> first | rfl | omega

lemma adv0_le (r c : Nat) : advect 0 u0init r c ≤ Tmantle := by
  rw [adv0_val]
  split_ifs
  · norm_num [Tslab, Tmantle]
  · exact le_refl Tmantle

/- value of a post-step cell in the interior, away from the boundary ring -/
lemma sim_succ_interior (g : Grid) (n r c : Nat)
    (hi : interiorCond r c) (hb : ¬ bcCond r c) :
    (sim g (n+1)).u r c
      = (advect n ((sim g n).u0) (r+1) c + advect n ((sim g n).u0) (r-1) c
          + advect n ((sim g n).u0) r (c+1) + advect n ((sim g n).u0) r (c-1)) / 4 := by
  rw [sim_succ_u]
  simp only [applyBC, stencilGrid]
  rw [if_neg hb, if_pos hi, interiorStep_avg]

/- slab-growth counting machinery -/

lemma all_congr_aux {l : List Nat} {p q : Nat → Bool}
    (hpq : ∀ x ∈ l, p x = q x) : l.all p = l.all q := by
  induction l with
  | nil => rfl
  | cons a t ih =>
    simp only [List.all_cons]
    rw [hpq a (List.mem_cons_self a t),
        ih (fun x hx => hpq x (List.mem_cons_of_mem a hx))]

lemma coldRow_true_iff (G : Grid) (r : Nat) :
    coldRow G r = true ↔ ∀ c, 25 ≤ c → c < 75 → G r c = Tslab := by
  unfold coldRow
  rw [List.all_eq_true]
  constructor
  · intro hall c h1 h2
    exact of_decide_eq_true (hall c (List.mem_range'_1.mpr ⟨h1, by omega⟩))
  · intro hall x hx
    have hx2 := List.mem_range'_1.mp hx
    exact decide_eq_true (hall x hx2.1 (by omega))

lemma coldRow_eq_false (G : Grid) (r c : Nat) (h1 : 25 ≤ c) (h2 : c < 75)
    (hne : G r c ≠ Tslab) : coldRow G r = false := by
  rw [← Bool.not_eq_true, coldRow_true_iff]
  intro hall
  exact hne (hall c h1 h2)

lemma coldRow_congr (G G' : Grid) (r : Nat)
    (hc : ∀ c, 25 ≤ c → c < 75 → G r c = G' r c) : coldRow G r = coldRow G' r := by
  unfold coldRow
  apply all_congr_aux
  intro x hx
  have hx2 := List.mem_range'_1.mp hx
  rw [hc x hx2.1 (by omega)]

/- after any step, column 25 of every interior row is strictly above Tslab,
because its left neighbor (column 24) is -/
lemma sim_col25_pos (g : Grid) (hg : inRangeGrid g) (n r : Nat) (hn : 1 ≤ n)
    (h1 : 1 ≤ r) (h2 : r ≤ 98) : Tslab < (sim g n).u0 r 25 := by
  obtain ⟨k, rfl⟩ : ∃ k, n = k + 1 := ⟨n - 1, by omega⟩
  have hI := Inv_sim g hg k
  rw [sim_succ_u0]
  simp only [applyBC, stencilGrid]
  rw [if_neg (by rw [bcCond_iff]; omega), if_pos (by rw [interiorCond_iff]; omega),
      interiorStep_avg]
  have hA := advect_inRange k _ hI.1
  have hAp := advect_pos24 k _ hI.2.2
  have B1 := (hA (r+1) 25 (by omega) (by omega)).1
  have B2 := (hA (r-1) 25 (by omega) (by omega)).1
  have B3 := (hA r 26 (by omega) (by omega)).1
  have P4 := hAp r 24 (by omega) (by omega)
  linarith

lemma sim_row_not_cold (g : Grid) (hg : inRangeGrid g) (n r : Nat) (hn : 1 ≤ n)
    (h1 : 1 ≤ r) (h2 : r ≤ 99) : coldRow ((sim g n).u0) r = false := by
  rcases Nat.lt_or_ge r 99 with hr | hr
  · exact coldRow_eq_false _ r 25 (by omega) (by omega)
      (ne_of_gt (sim_col25_pos g hg n r hn h1 (by omega)))
  · have h99 : r = 99 := by omega
    subst h99
    obtain ⟨k, rfl⟩ : ∃ k, n = k + 1 := ⟨n - 1, by omega⟩
    refine coldRow_eq_false _ 99 25 (by omega) (by omega) ?_
    have hv : (sim g (k+1)).u0 99 25 = Tmantle := by
      rw [sim_u0_eq_u]
      exact sim_bc g k 99 25 (by rw [bcCond_iff]; omega)
    rw [hv]
    norm_num [Tslab, Tmantle]

/- with an in-range buffer the cold-row count is the same after every step:
rows 1..99 are never entirely at Tslab, and row 0 holds the fixed buffer
contents -/
lemma coldRowCount_sim_const (g : Grid) (hg : inRangeGrid g) (m : Nat)
    (hm : 1 ≤ m) :
    coldRowCount ((sim g (m+1)).u0) = coldRowCount ((sim g m).u0) := by
  have hpt : ∀ r ∈ List.range 100,
      coldRow ((sim g (m+1)).u0) r = coldRow ((sim g m).u0) r := by
    intro r hr
    rw [List.mem_range] at hr
    rcases Nat.eq_zero_or_pos r with h0 | hpos
    · subst h0
      apply coldRow_congr
      intro c h1 h2
      have e1 : (sim g (m+1)).u0 0 c = g 0 c := by
        rw [sim_u0_eq_u]
        exact sim_u_row0 g (m+1) c h1 (by omega)
      have e2 : (sim g m).u0 0 c = g 0 c := by
        obtain ⟨j, rfl⟩ : ∃ j, m = j + 1 := ⟨m - 1, by omega⟩
        rw [sim_u0_eq_u]
        exact sim_u_row0 g (j+1) c h1 (by omega)
      rw [e1, e2]
    · rw [sim_row_not_cold g hg (m+1) r (by omega) hpos (by omega),
          sim_row_not_cold g hg m r hm hpos (by omega)]
  exact congrArg List.length (List.filter_congr hpt)

/- the claims -/

/-- Claim C1: for interior cells the diffuser computes the explicit 5-point
finite-difference update, reading only the previous-state grid, and the
boundary conditions are applied afterwards on top of the stencil result. -/
theorem diffuser_interior_stencil (u0 u : Grid) (r c : Nat)
    (h1 : 1 ≤ r) (h2 : r ≤ nx - 2) (h3 : 1 ≤ c) (h4 : c ≤ ny - 2) :
    stencilGrid u0 u r c
      = u0 r c + K * dt * ((u0 (r+1) c - 2 * u0 r c + u0 (r-1) c) / dx2
          + (u0 r (c+1) - 2 * u0 r c + u0 r (c-1)) / dy2) ∧
    (diffuser u0 u).2 = applyBC (stencilGrid u0 u) := by
  refine ⟨?_, rfl⟩
  unfold stencilGrid
  rw [if_pos ⟨h1, h2, h3, h4⟩]
  rfl

theorem diffuser_interior_stencil_inst :
    stencilGrid u0init u0init 3 40
      = u0init 3 40 + K * dt * ((u0init 4 40 - 2 * u0init 3 40 + u0init 2 40) / dx2
          + (u0init 3 41 - 2 * u0init 3 40 + u0init 3 39) / dy2) ∧
    (diffuser u0init u0init).2 = applyBC (stencilGrid u0init u0init) :=
  diffuser_interior_stencil u0init u0init 3 40 (by decide) (by decide) (by decide)
    (by decide)

/-- Claim C2: at every step m, advect gives each row r with 2 ≤ r ≤ m, within
columns 25..74, the value previously held at row r-1 (a simultaneous shift of
the pre-assignment grid), then sets row 1 of the span to Tslab; on the run's
states no other cell changes value. -/
theorem advect_shift_spec :
    (∀ (u0 : Grid) (m r c : Nat), 2 ≤ r → r ≤ m → 25 ≤ c → c < 75 →
      advect m u0 r c = u0 (r - 1) c) ∧
    (∀ (u0 : Grid) (m c : Nat), 25 ≤ c → c < 75 → advect m u0 1 c = Tslab) ∧
    (∀ (g : Grid) (m r c : Nat), ¬(1 ≤ r ∧ r ≤ m ∧ 25 ≤ c ∧ c < 75) →
      advect m ((sim g m).u0) r c = (sim g m).u0 r c) := by
  refine ⟨?_, ?_, ?_⟩
  · intro u0 m r c h2 hm h25 h75
    unfold advect
    rw [if_pos ⟨h25, h75⟩, if_neg (by omega), if_pos ⟨h2, hm⟩]
  · intro u0 m c h25 h75
    unfold advect
    rw [if_pos ⟨h25, h75⟩, if_pos rfl]
  · intro g m r c hnot
    by_cases hc : 25 ≤ c ∧ c < 75
    · by_cases hr1 : r = 1
      · subst hr1
        have hm : m = 0 := by omega
        subst hm
        unfold advect
        rw [if_pos hc, if_pos rfl]
        show Tslab = u0init 1 c
        unfold u0init
        rw [if_pos ⟨rfl, hc.1, hc.2⟩]
      · unfold advect
        rw [if_pos hc, if_neg hr1, if_neg (by omega)]
    · unfold advect
      rw [if_neg hc]

theorem advect_shift_spec_inst :
    advect 3 u0init 2 30 = u0init 1 30 ∧
    advect 3 u0init 1 30 = Tslab ∧
    advect 0 ((sim (fun _ _ => (0:ℚ)) 0).u0) 1 30
      = (sim (fun _ _ => (0:ℚ)) 0).u0 1 30 :=
  ⟨advect_shift_spec.1 u0init 3 2 30 (by omega) (by omega) (by omega) (by omega),
   advect_shift_spec.2.1 u0init 3 30 (by omega) (by omega),
   advect_shift_spec.2.2 (fun _ _ => (0:ℚ)) 0 1 30 (by omega)⟩

/-- Claim C3 counterexample: with an uninitialized buffer holding 2000 the
grid after one step carries a value outside [Tslab, Tmantle] at the
never-written top-row cell (0,30). -/
theorem energy_bound_counterex :
    ¬(Tslab ≤ (sim (fun _ _ => (2000:ℚ)) 1).u 0 30 ∧
      (sim (fun _ _ => (2000:ℚ)) 1).u 0 30 ≤ Tmantle) := by decide

/-- Claim C3 amended: provided every cell of the uninitialized next-state
buffer lies in [Tslab, Tmantle], every value of both grids lies within
[Tslab, Tmantle] at every step. -/
theorem energy_bound_in_range (g : Grid) (hg : inRangeGrid g) (n r c : Nat)
    (hr : r < 100) (hc : c < 100) :
    (Tslab ≤ (sim g n).u0 r c ∧ (sim g n).u0 r c ≤ Tmantle) ∧
    (Tslab ≤ (sim g n).u r c ∧ (sim g n).u r c ≤ Tmantle) := by
  have hI := Inv_sim g hg n
  exact ⟨hI.1 r c hr hc, hI.2.1 r c hr hc⟩

theorem energy_bound_in_range_inst :
    (Tslab ≤ (sim (fun _ _ => (1300:ℚ)) 2).u0 7 40 ∧
     (sim (fun _ _ => (1300:ℚ)) 2).u0 7 40 ≤ Tmantle) ∧
    (Tslab ≤ (sim (fun _ _ => (1300:ℚ)) 2).u 7 40 ∧
     (sim (fun _ _ => (1300:ℚ)) 2).u 7 40 ≤ Tmantle) :=
  energy_bound_in_range (fun _ _ => (1300:ℚ))
    (fun _ _ _ _ => by constructor <;> norm_num [Tslab, Tmantle]) 2 7 40
    (by omega) (by omega)

/-- Claim C4: after every step, every cell of column 0, column nx-1 and row
ny-1 equals Tmantle, in both the next-state grid and the copied
previous-state grid. -/
theorem boundary_pinned (g : Grid) (n r c : Nat) (hn : 1 ≤ n)
    (hrc : c = 0 ∨ c = nx - 1 ∨ r = ny - 1) :
    (sim g n).u r c = Tmantle ∧ (sim g n).u0 r c = Tmantle := by
  obtain ⟨k, rfl⟩ : ∃ k, n = k + 1 := ⟨n - 1, by omega⟩
  have hb : bcCond r c := by
    rcases hrc with hh | hh | hh
    · exact Or.inl hh
    · exact Or.inr (Or.inl hh)
    · exact Or.inr (Or.inr (Or.inl hh))
  refine ⟨sim_bc g k r c hb, ?_⟩
  rw [sim_u0_eq_u]
  exact sim_bc g k r c hb

theorem boundary_pinned_inst :
    (sim (fun _ _ => (0:ℚ)) 1).u 7 0 = Tmantle ∧
    (sim (fun _ _ => (0:ℚ)) 1).u0 7 0 = Tmantle :=
  boundary_pinned (fun _ _ => (0:ℚ)) 1 7 0 (by omega) (Or.inl rfl)

/-- Claim C5 counterexample: column 75 of the topmost row is NOT reset to
Tmantle: the boundary loop only covers i < 25 and i > 75, so cell (0,75)
keeps the uninitialized buffer's contents (here 2000) after a step. -/
theorem top_row_counterex :
    (sim (fun _ _ => (2000:ℚ)) 1).u 0 75 ≠ Tmantle := by decide

/-- Claim C5 amended: after every step, every topmost-row cell with column
index below 25 or above 75 equals Tmantle; columns 25..75 (including column
75) are excluded from the assignment and retain the buffer's contents. -/
theorem top_row_outside_pinned (g : Grid) (n c : Nat) (hn : 1 ≤ n)
    (hc : c < 25 ∨ 75 < c) : (sim g n).u 0 c = Tmantle := by
  obtain ⟨k, rfl⟩ : ∃ k, n = k + 1 := ⟨n - 1, by omega⟩
  exact sim_bc g k 0 c (Or.inr (Or.inr (Or.inr ⟨rfl, hc⟩)))

theorem top_row_outside_pinned_inst :
    (sim (fun _ _ => (2000:ℚ)) 1).u 0 76 = Tmantle :=
  top_row_outside_pinned (fun _ _ => (2000:ℚ)) 1 76 (by omega) (by omega)

/-- Claim C10: diffuse never writes the topmost-row cells in columns 25..75:
they are outside both the interior stencil slice and the boundary
assignments, so the next-state grid keeps the buffer's previous contents
there; after the buffer copy those cells still hold the uninitialized
contents, and they are exactly the row-0 inputs of the row-1 stencil at the
following step. -/
theorem top_gap_unwritten :
    (∀ (u0 u : Grid) (c : Nat), 25 ≤ c → c ≤ 75 → (diffuser u0 u).2 0 c = u 0 c) ∧
    (∀ (g : Grid) (n c : Nat), 25 ≤ c → c ≤ 75 → (sim g (n+1)).u 0 c = g 0 c) ∧
    (∀ (g : Grid) (n c : Nat), 1 ≤ n → 25 ≤ c → c ≤ 75 →
      (sim g (n+1)).u 1 c = interiorStep (advect n ((sim g n).u0)) 1 c ∧
      advect n ((sim g n).u0) 0 c = g 0 c) := by
  refine ⟨?_, ?_, ?_⟩
  · intro u0 u c h1 h2
    show applyBC (stencilGrid u0 u) 0 c = u 0 c
    simp only [applyBC, stencilGrid]
    rw [if_neg (by rw [bcCond_iff]; omega), if_neg (by rw [interiorCond_iff]; omega)]
  · intro g n c h1 h2
    exact sim_u_row0 g (n+1) c h1 h2
  · intro g n c hn h1 h2
    constructor
    · rw [sim_succ_u]
      simp only [applyBC, stencilGrid]
      rw [if_neg (by rw [bcCond_iff]; omega), if_pos (by rw [interiorCond_iff]; omega)]
    · have hrow0 : advect n ((sim g n).u0) 0 c = (sim g n).u0 0 c := by
        unfold advect
        by_cases hsp : 25 ≤ c ∧ c < 75
        · rw [if_pos hsp, if_neg (by omega), if_neg (by omega)]
        · rw [if_neg hsp]
      rw [hrow0]
      obtain ⟨k, rfl⟩ : ∃ k, n = k + 1 := ⟨n - 1, by omega⟩
      rw [sim_u0_eq_u]
      exact sim_u_row0 g (k+1) c h1 h2

theorem top_gap_unwritten_inst :
    (diffuser u0init u0init).2 0 30 = u0init 0 30 ∧
    (sim (fun _ _ => (7:ℚ)) 1).u 0 30 = (fun _ _ => (7:ℚ)) 0 30 ∧
    ((sim (fun _ _ => (7:ℚ)) 2).u 1 30
       = interiorStep (advect 1 ((sim (fun _ _ => (7:ℚ)) 1).u0)) 1 30 ∧
     advect 1 ((sim (fun _ _ => (7:ℚ)) 1).u0) 0 30 = (fun _ _ => (7:ℚ)) 0 30) :=
  ⟨top_gap_unwritten.1 u0init u0init 30 (by omega) (by omega),
   top_gap_unwritten.2.1 (fun _ _ => (7:ℚ)) 0 30 (by omega) (by omega),
   top_gap_unwritten.2.2 (fun _ _ => (7:ℚ)) 1 30 (by omega) (by omega) (by omega)⟩

unseal Rat.add Rat.sub Rat.mul Rat.inv Rat.ofScientific in
/-- Claim C8 counterexample: from the initial grid, after exactly one step the
slab-span cell (2,30) equals 975, not Tslab (the shift has not reached row 2),
and the interior row-1 cell (1,10) still equals Tmantle, not strictly below
it. -/
theorem one_step_counterex :
    (sim (fun _ _ => (0:ℚ)) 1).u 2 30 ≠ Tslab ∧
    ¬((sim (fun _ _ => (0:ℚ)) 1).u 1 10 < Tmantle) := by decide

/-- Claim C8 amended: after exactly one step, every slab-span cell of row 2
equals 975 (strictly below Tmantle but not Tslab), row-1 cells in columns
24..75 are strictly below Tmantle, and the remaining interior row-1 cells
still equal Tmantle; this holds for any uninitialized-buffer contents. -/
theorem one_step_scenario (g : Grid) :
    (∀ c, 25 ≤ c → c < 75 → (sim g 1).u 2 c = 975) ∧
    (∀ c, 24 ≤ c → c ≤ 75 → (sim g 1).u 1 c < Tmantle) ∧
    (∀ c, (1 ≤ c ∧ c ≤ 23) ∨ (76 ≤ c ∧ c ≤ 98) → (sim g 1).u 1 c = Tmantle) := by
  have hST : Tslab < Tmantle := by norm_num [Tslab, Tmantle]
  refine ⟨?_, ?_, ?_⟩
  · intro c h1 h2
    rw [sim_succ_interior g 0 2 c ((interiorCond_iff 2 c).mpr (by omega))
          (by rw [bcCond_iff]; omega)]
    show (advect 0 u0init 3 c + advect 0 u0init 1 c
            + advect 0 u0init 2 (c+1) + advect 0 u0init 2 (c-1)) / 4 = 975
    rw [adv0_val, adv0_val, adv0_val, adv0_val]
    rw [if_neg (by omega), if_pos (show (1:ℕ) = 1 ∧ 25 ≤ c ∧ c < 75 from ⟨rfl, h1, h2⟩),
        if_neg (by omega), if_neg (by omega)]
    norm_num [Tslab, Tmantle]
  · intro c h1 h2
    rw [sim_succ_interior g 0 1 c ((interiorCond_iff 1 c).mpr (by omega))
          (by rw [bcCond_iff]; omega)]
    show (advect 0 u0init 2 c + advect 0 u0init 0 c
            + advect 0 u0init 1 (c+1) + advect 0 u0init 1 (c-1)) / 4 < Tmantle
    have e2 : advect 0 u0init 2 c = Tmantle := by rw [adv0_val, if_neg (by omega)]
    have e0 : advect 0 u0init 0 c = Tmantle := by rw [adv0_val, if_neg (by omega)]
    have hleR : advect 0 u0init 1 (c+1) ≤ Tmantle := adv0_le 1 (c+1)
    have hleL : advect 0 u0init 1 (c-1) ≤ Tmantle := adv0_le 1 (c-1)
    have hzero : advect 0 u0init 1 (c+1) = Tslab ∨ advect 0 u0init 1 (c-1) = Tslab := by
      rcases le_or_lt c 73 with hcase | hcase
      · left
        rw [adv0_val, if_pos ⟨rfl, by omega, by omega⟩]
      · right
        rw [adv0_val, if_pos ⟨rfl, by omega, by omega⟩]
    rw [e2, e0]
    rcases hzero with h0 | h0
    · rw [h0]
      linarith
    · rw [h0]
      linarith
  · intro c hc
    rw [sim_succ_interior g 0 1 c ((interiorCond_iff 1 c).mpr (by omega))
          (by rw [bcCond_iff]; omega)]
    show (advect 0 u0init 2 c + advect 0 u0init 0 c
            + advect 0 u0init 1 (c+1) + advect 0 u0init 1 (c-1)) / 4 = Tmantle
    rw [adv0_val, adv0_val, adv0_val, adv0_val]
    rw [if_neg (by omega), if_neg (by omega), if_neg (by omega), if_neg (by omega)]
    ring

theorem one_step_scenario_inst :
    (sim (fun _ _ => (0:ℚ)) 1).u 2 30 = 975 ∧
    (sim (fun _ _ => (0:ℚ)) 1).u 1 30 < Tmantle ∧
    (sim (fun _ _ => (0:ℚ)) 1).u 1 10 = Tmantle :=
  ⟨(one_step_scenario (fun _ _ => (0:ℚ))).1 30 (by omega) (by omega),
   (one_step_scenario (fun _ _ => (0:ℚ))).2.1 30 (by omega) (by omega),
   (one_step_scenario (fun _ _ => (0:ℚ))).2.2 10 (Or.inl ⟨by omega, by omega⟩)⟩

unseal Rat.add Rat.sub Rat.mul Rat.inv Rat.ofScientific in
/-- Claim C7 counterexample: with an adversarial uninitialized buffer the
number of rows at Tslab within the slab span DECREASES between the states
after step index 1 and after step index 2: row 1 is driven to exactly Tslab
by the never-written top-row garbage and then leaves Tslab again. -/
theorem slab_growth_counterex :
    coldRowCount ((sim g7 3).u0) < coldRowCount ((sim g7 2).u0) := by decide

/-- Claim C7 amended: provided the uninitialized buffer's contents lie in
[Tslab, Tmantle], the number of rows at Tslab within the slab's column span,
compared between the states after consecutive completed steps, is
non-decreasing and increases by at most one row per step (it is in fact
constant: after any step only the never-written top row can be at Tslab). -/
theorem slab_growth_bounded (g : Grid) (hg : inRangeGrid g) (m : Nat)
    (hm : 1 ≤ m) :
    coldRowCount ((sim g m).u0) ≤ coldRowCount ((sim g (m+1)).u0) ∧
    coldRowCount ((sim g (m+1)).u0) ≤ coldRowCount ((sim g m).u0) + 1 := by
  have he := coldRowCount_sim_const g hg m hm
  omega

theorem slab_growth_bounded_inst :
    coldRowCount ((sim (fun _ _ => (1300:ℚ)) 1).u0)
        ≤ coldRowCount ((sim (fun _ _ => (1300:ℚ)) 2).u0) ∧
    coldRowCount ((sim (fun _ _ => (1300:ℚ)) 2).u0)
        ≤ coldRowCount ((sim (fun _ _ => (1300:ℚ)) 1).u0) + 1 :=
  slab_growth_bounded (fun _ _ => (1300:ℚ))
    (fun _ _ _ _ => by constructor <;> norm_num [Tslab, Tmantle]) 1 (by omega)

/-- Claim C6: every time step is the strictly ordered composition of advect
followed by diffuse; diffuse reads the post-advection state. -/
theorem step_is_advect_then_diffuse :
    ∀ (g : Grid) (m : Nat), sim g (m+1) = diffuseOp (advectOp m (sim g m)) :=
  fun _ _ => rfl

/-- Claim C9: snapshot returns (a copy of) the current grid and leaves the
simulator state unchanged; two calls without an intervening step return
identical grids. -/
theorem snapshot_pure :
    ∀ s : State,
      (snapshot s).1 = s.u ∧ (snapshot s).2 = s ∧
      (snapshot (snapshot s).2).1 = (snapshot s).1 :=
  fun _ => ⟨rfl, rfl, rfl⟩

end SlabDiff
